import Mathlib

/-!
Verification of the contribution-calendar renderer (`src/index.ts`).

Shallow embedding conventions:
* Calendar dates are integers counting days since 1970-01-01 (the value a JS
  `Date` takes after `d3.timeDay.floor`, at day granularity).
* JS numbers that reach `isValidYear` are modelled as `Option ℚ`, with `none`
  standing for `NaN`; every concrete value exercised here is exactly
  representable, so rationals are faithful to IEEE doubles on those inputs.
* The JS `Map<string, number>` is modelled as an insertion-ordered association
  list: `set` overwrites in place or appends, exactly like `Map.prototype.set`.
-/

namespace ContributionGraph

/-- Gregorian leap-year test (`d3`'s calendar arithmetic is proleptic
Gregorian, as is JS `Date` for the years used here). -/
def isLeap (y : ℕ) : Bool :=
  (y % 4 == 0 && y % 100 != 0) || y % 400 == 0

/-- Number of days in year `y`. -/
def daysInYear (y : ℕ) : ℕ :=
  if isLeap y then 366 else 365

/-- Number of days in month `m` (1-based) of year `y`. -/
def daysInMonth (y m : ℕ) : ℕ :=
  if m = 2 then (if isLeap y then 29 else 28)
  else if m = 4 ∨ m = 6 ∨ m = 9 ∨ m = 11 then 30
  else 31

/-- Days in year `y` strictly before month `m+1`, i.e. the sum of the first
`m` month lengths. -/
def cumDaysInMonths (y m : ℕ) : ℕ :=
  ((List.range m).map (fun i => daysInMonth y (i + 1))).sum

/-- Days from 1601-01-01 to `y`-01-01 (anchor chosen at a 400-year Gregorian
cycle boundary safely below 1970). -/
def daysFromAnchor (y : ℕ) : ℕ :=
  ((List.range (y - 1601)).map (fun i => daysInYear (1601 + i))).sum

/-- Day number of January 1 of year `y` (days since 1970-01-01; negative
before 1970).  Embeds `d3.timeDay.floor(new Date(year, 0, 1))`. -/
def jan1 (y : ℕ) : ℤ :=
  (daysFromAnchor y : ℤ) - (daysFromAnchor 1970 : ℤ)

/-- Day number of the first day of month `m` (1-based) of year `y`. -/
def monthStartDay (y m : ℕ) : ℤ :=
  jan1 y + (cumDaysInMonths y (m - 1) : ℤ)

/-- Day of week, Sunday = 0 … Saturday = 6 (1970-01-01 was a Thursday).
Embeds JS `Date.prototype.getDay`. -/
def dow (d : ℤ) : ℤ :=
  (d + 4) % 7

/-- Latest Sunday on or before `d`; embeds `d3.timeSunday.floor`. -/
def sundayFloor (d : ℤ) : ℤ :=
  d - dow d

/-- Earliest Sunday on or after `d`; embeds `d3.timeSunday.ceil` at day
granularity. -/
def sundayCeil (d : ℤ) : ℤ :=
  sundayFloor (d + 6)

/-- Number of Sunday boundaries crossed going from `a` to `b`; embeds
`d3.timeSunday.count` at day granularity. -/
def sundayCount (a b : ℤ) : ℤ :=
  (sundayFloor b - sundayFloor a) / 7

/-- `const start = d3.timeSunday.floor(yearStart)` (src/index.ts:258). -/
def gridStart (y : ℕ) : ℤ :=
  sundayFloor (jan1 y)

/-- `const end = d3.timeSunday.ceil(yearEnd)` (src/index.ts:259). -/
def gridEnd (y : ℕ) : ℤ :=
  sundayCeil (jan1 (y + 1))

/-- `d3.timeDay.range(a, b)`: every day in `[a, b)`. -/
def dayRange (a b : ℤ) : List ℤ :=
  (List.range (b - a).toNat).map (fun i : ℕ => a + (i : ℤ))

/-- The dates of the generated grid of year `y`. -/
def gridDays (y : ℕ) : List ℤ :=
  dayRange (gridStart y) (gridEnd y)

/-- Civil date `(year, month, day)` of a day number (month and day 1-based).
Standard Gregorian decomposition anchored at 1601-01-01, which is 134774 days
before 1970-01-01. -/
def ymdOfDay (d : ℤ) : ℕ × ℕ × ℕ :=
  let n := (d + 134774).toNat
  let q400 := n / 146097
  let r400 := n % 146097
  let q100 := min (r400 / 36524) 3
  let r100 := r400 - q100 * 36524
  let q4 := r100 / 1461
  let r4 := r100 % 1461
  let q1 := min (r4 / 365) 3
  let doy := r4 - q1 * 365
  let y := 1601 + 400 * q400 + 100 * q100 + 4 * q4 + q1
  let m := ((List.range 12).filter (fun k => decide (cumDaysInMonths y k ≤ doy))).length
  (y, m, doy - cumDaysInMonths y (m - 1) + 1)

/-- Left-pad the decimal form of `n` with zeros to width `w`. -/
def padTo (w n : ℕ) : String :=
  let s := toString n
  String.mk (List.replicate (w - s.length) '0') ++ s

/-- `d3.timeFormat('%Y-%m-%d')` on a day number (src/index.ts:263). -/
def formatDate (d : ℤ) : String :=
  let ymd := ymdOfDay d
  padTo 4 ymd.1 ++ "-" ++ padTo 2 ymd.2.1 ++ "-" ++ padTo 2 ymd.2.2

/-- Drop one trailing carriage return, as the regex `\r?\n` consumes a `\r`
directly preceding the `\n` it matches on. -/
def stripCR (s : String) : String :=
  if s.endsWith "\r" then s.dropRight 1 else s

/-- `output.split(/\r?\n/)` (src/index.ts:214): split at every `\n`, where
each segment followed by a `\n` loses one `\r` the regex consumed. -/
def splitLines (s : String) : List String :=
  let parts := s.splitOn "\n"
  parts.dropLast.map stripCR ++ parts.drop (parts.length - 1)

/-- `Map.prototype.get` on the association-list model. -/
def mapGet : List (String × ℕ) → String → Option ℕ
  | [], _ => none
  | (k', v) :: rest, k => if k' = k then some v else mapGet rest k

/-- `Map.prototype.set`: overwrite the existing entry in place, else append. -/
def mapSet : List (String × ℕ) → String → ℕ → List (String × ℕ)
  | [], k, v => [(k, v)]
  | (k', v') :: rest, k, v =>
    if k' = k then (k, v) :: rest else (k', v') :: mapSet rest k v

/-- Body of the loop in `parseGitContributionCounts` (src/index.ts:214-218):
trim the line, skip if empty, else increment its counter. -/
def histStep (counts : List (String × ℕ)) (line : String) : List (String × ℕ) :=
  let date := line.trim
  if date.isEmpty then counts
  else mapSet counts date ((mapGet counts date).getD 0 + 1)

/-- The histogram accumulated over a list of raw lines. -/
def buildHistogram (lines : List String) : List (String × ℕ) :=
  lines.foldl histStep []

/-- `parseGitContributionCounts` (src/index.ts:185-221), from the subprocess
standard output to the date histogram. -/
def parseGitContributionCounts (output : String) : List (String × ℕ) :=
  buildHistogram (splitLines output)

/-- Keys of the histogram, in insertion order. -/
def keysOf (m : List (String × ℕ)) : List String :=
  m.map Prod.fst

/-- The trimmed non-empty lines actually counted by the loop. -/
def cleanedDates (lines : List String) : List String :=
  (lines.map String.trim).filter (fun s => !s.isEmpty)

/-- Number of occurrences of `k` in a list of strings. -/
def occ (lines : List String) (k : String) : ℕ :=
  (lines.filter (fun s => decide (s = k))).length

/-- `DayDatum` (src/index.ts:165-169). -/
structure DayDatum where
  date : ℤ
  count : ℕ
  inYear : Bool
deriving DecidableEq

/-- Body of the `days` map (src/index.ts:261-266). -/
def mkDayDatum (counts : List (String × ℕ)) (ys ye : ℤ) (date : ℤ) : DayDatum :=
  let inYear := decide (ys ≤ date ∧ date < ye)
  let key := formatDate date
  let count := if inYear then (mapGet counts key).getD 0 else 0
  ⟨date, count, inYear⟩

/-- `const days: DayDatum[] = ...` (src/index.ts:261). -/
def days (counts : List (String × ℕ)) (y : ℕ) : List DayDatum :=
  (gridDays y).map (mkDayDatum counts (jan1 y) (jan1 (y + 1)))

/-- `const cellSize = 12` (src/index.ts:242). -/
def cellSize : ℤ := 12

/-- `const cellGap = 3` (src/index.ts:243). -/
def cellGap : ℤ := 3

/-- `const step = cellSize + cellGap` (src/index.ts:244). -/
def step : ℤ := cellSize + cellGap

/-- Rect x-attribute of a day cell (src/index.ts:378). -/
def rectX (st : ℤ) (d : DayDatum) : ℤ :=
  sundayCount st d.date * step

/-- Rect y-attribute of a day cell (src/index.ts:379). -/
def rectY (d : DayDatum) : ℤ :=
  dow d.date * step

/-- `.domain([1, 4, 7, 11, 16])` (src/index.ts:275). -/
def colorDomain : List ℕ := [1, 4, 7, 11, 16]

/-- `.range([...])` (src/index.ts:276). -/
def colorRange : List String :=
  ["#ebedf0", "#9be9a8", "#40c463", "#30a14e", "#216e39", "#134a22"]

/-- Right bisection on an ascending list: the number of thresholds `≤ x`,
which is where `d3.scaleThreshold` sends its input. -/
def bisectRight (l : List ℕ) (x : ℕ) : ℕ :=
  (l.filter (fun t => decide (t ≤ x))).length

/-- The band (0-5) a count falls into. -/
def bandIndex (n : ℕ) : ℕ :=
  bisectRight colorDomain n

/-- `d3.scaleThreshold().domain([1,4,7,11,16]).range([...])` applied to a
non-negative integer count (src/index.ts:273-276). -/
def color (n : ℕ) : String :=
  colorRange.getD (bandIndex n) ""

/-- All month-start day numbers of the years `y-1`, `y`, `y+1`; a window that
contains every month boundary the program touches while rendering year `y`. -/
def monthStartsAround (y : ℕ) : List ℤ :=
  (List.range 36).map (fun i => monthStartDay (y - 1 + i / 12) (i % 12 + 1))

/-- `d3.timeMonth.floor` for dates inside the three-year window around `y`:
the greatest month start on or before `d`. -/
def timeMonthFloorNear (y : ℕ) (d : ℤ) : ℤ :=
  ((monthStartsAround y).filter (fun m => decide (m ≤ d))).foldl max (monthStartDay (y - 1) 1)

/-- `d3.timeMonth.range(a, b)` for bounds inside the window around `y`: the
month starts in `[a, b)`, ascending. -/
def timeMonthRangeNear (y : ℕ) (a b : ℤ) : List ℤ :=
  (dayRange a b).filter (fun d => decide (d ∈ monthStartsAround y))

/-- `const monthStarts = d3.timeMonth.range(d3.timeMonth.floor(start), end)
.filter(d => d >= yearStart && d < yearEnd)` (src/index.ts:350-352). -/
def monthStarts (y : ℕ) : List ℤ :=
  (timeMonthRangeNear y (timeMonthFloorNear y (gridStart y)) (gridEnd y)).filter
    (fun d => decide (jan1 y ≤ d ∧ d < jan1 (y + 1)))

/-- Month label x-attribute (src/index.ts:359). -/
def monthLabelX (st m : ℤ) : ℤ :=
  sundayCount st (sundayFloor m) * step

/-- ECMAScript `StrWhiteSpaceChar` (ASCII fragment). -/
def isJsSpace (c : Char) : Bool :=
  c = ' ' || c = '\t' || c = '\n' || c = '\r' || c = '\x0b' || c = '\x0c'

/-- Value of one hexadecimal digit. -/
def hexDigitVal (c : Char) : Option ℕ :=
  if '0' ≤ c ∧ c ≤ '9' then some (c.toNat - 48)
  else if 'a' ≤ c ∧ c ≤ 'f' then some (c.toNat - 87)
  else if 'A' ≤ c ∧ c ≤ 'F' then some (c.toNat - 55)
  else none

/-- Value of a non-empty string of hexadecimal digits. -/
def parseHexNat (cs : List Char) : Option ℕ :=
  if cs.isEmpty then none
  else
    cs.foldl
      (fun acc c =>
        match acc, hexDigitVal c with
        | some a, some h => some (a * 16 + h)
        | _, _ => none)
      (some 0)

/-- Value of a string of decimal digits. -/
def digitsVal (cs : List Char) : ℕ :=
  cs.foldl (fun a c => a * 10 + (c.toNat - 48)) 0

/-- All characters are decimal digits. -/
def allDigits (cs : List Char) : Bool :=
  cs.all (fun c => c.isDigit)

/-- ECMAScript `ExponentPart` body: optional sign then digits. -/
def parseExp (cs : List Char) : Option ℤ :=
  match cs with
  | '+' :: r => if r.isEmpty || !allDigits r then none else some ((digitsVal r : ℕ) : ℤ)
  | '-' :: r => if r.isEmpty || !allDigits r then none else some (-((digitsVal r : ℕ) : ℤ))
  | r => if r.isEmpty || !allDigits r then none else some ((digitsVal r : ℕ) : ℤ)

/-- ECMAScript decimal mantissa: `digits [. digits]`, `. digits`, with at
least one digit overall. -/
def parseMantissa (cs : List Char) : Option ℚ :=
  let p := cs.span (fun c => c != '.')
  match p.2 with
  | [] => if p.1.isEmpty || !allDigits p.1 then none else some ((digitsVal p.1 : ℕ) : ℚ)
  | _ :: fp =>
    if !allDigits p.1 || !allDigits fp then none
    else if p.1.isEmpty && fp.isEmpty then none
    else some (((digitsVal p.1 : ℕ) : ℚ) + ((digitsVal fp : ℕ) : ℚ) / ((10 : ℚ) ^ fp.length))

/-- ECMAScript unsigned decimal literal: mantissa with optional exponent. -/
def parseUnsignedDec (cs : List Char) : Option ℚ :=
  let q := cs.span (fun c => c != 'e' && c != 'E')
  match q.2 with
  | [] => parseMantissa q.1
  | _ :: ex =>
    match parseMantissa q.1, parseExp ex with
    | some m, some e => some (m * (10 : ℚ) ^ e)
    | _, _ => none

/-- ECMAScript signed decimal literal. -/
def parseDec (cs : List Char) : Option ℚ :=
  match cs with
  | '+' :: r => parseUnsignedDec r
  | '-' :: r => (parseUnsignedDec r).map (fun q => -q)
  | r => parseUnsignedDec r

/-- JS `Number(string)` coercion (`StringToNumber`), on the grammar fragment
relevant here: whitespace trimming, the empty string, hex integers, and
signed decimal literals with optional fraction and exponent.  `none` is
`NaN`. -/
def jsStringToNumber (s : String) : Option ℚ :=
  let t := ((s.toList.dropWhile isJsSpace).reverse.dropWhile isJsSpace).reverse
  match t with
  | [] => some 0
  | '0' :: 'x' :: r => (parseHexNat r).map (fun n => ((n : ℕ) : ℚ))
  | '0' :: 'X' :: r => (parseHexNat r).map (fun n => ((n : ℕ) : ℚ))
  | r => parseDec r

/-- `isValidYear` (src/index.ts:181-183): `Number.isInteger(year) &&
year >= 1970 && year <= 2100`, with `none` = `NaN` failing all three. -/
def isValidYear (year : Option ℚ) : Bool :=
  match year with
  | none => false
  | some q => q.den == 1 && decide ((1970 : ℚ) ≤ q) && decide (q ≤ (2100 : ℚ))

/-- `usage()` (src/index.ts:171-179). -/
def usage : String :=
  String.intercalate "\n"
    ["Usage:",
     "  npm start -- <repoPath> <year> [outputPng]",
     "",
     "Example:",
     "  npm start -- /path/to/repo 2024 contributions-2024.png"]

/-- JS falsiness of an optional CLI string: `undefined` or `''`. -/
def argFalsy : Option String → Bool
  | none => true
  | some s => s.isEmpty

/-- Observable effects of one run of `main` (src/index.ts:223-241), up to the
decision points the spec talks about. -/
structure MainEffects where
  stderrLines : List String
  exitCode : ℕ
  invokedGit : Bool
  wroteFile : Option String
deriving DecidableEq

/-- `main`'s argument handling (src/index.ts:224-240): missing arguments and
invalid years error out before the `git` subprocess runs or a file is
written; otherwise the run proceeds. -/
def mainModel (repoArg yearArg outArg : Option String) : MainEffects :=
  let outPath := outArg.getD "graph.png"
  if argFalsy repoArg || argFalsy yearArg then
    ⟨[usage], 1, false, none⟩
  else
    let yearStr := yearArg.getD ""
    let year := jsStringToNumber yearStr
    if !isValidYear year then
      ⟨["Invalid year: " ++ yearStr, usage], 1, false, none⟩
    else
      ⟨[], 0, true, some outPath⟩

/-! ### Helper lemmas -/

/-- Closed form of the threshold bisection over `[1, 4, 7, 11, 16]`. -/
theorem bandIndex_eq (n : ℕ) :
    bandIndex n =
      if n < 1 then 0 else if n < 4 then 1 else if n < 7 then 2
      else if n < 11 then 3 else if n < 16 then 4 else 5 := by
  rcases Nat.lt_or_ge n 16 with h | h
  · interval_cases n <;> decide
  · have h1 : (decide ((1 : ℕ) ≤ n)) = true := decide_eq_true (by omega)
    have h4 : (decide ((4 : ℕ) ≤ n)) = true := decide_eq_true (by omega)
    have h7 : (decide ((7 : ℕ) ≤ n)) = true := decide_eq_true (by omega)
    have h11 : (decide ((11 : ℕ) ≤ n)) = true := decide_eq_true (by omega)
    have h16 : (decide ((16 : ℕ) ≤ n)) = true := decide_eq_true (by omega)
    simp only [bandIndex, bisectRight, colorDomain, List.filter_cons, List.filter_nil,
      h1, h4, h7, h11, h16, if_true, List.length_cons, List.length_nil]
    rw [if_neg (by omega), if_neg (by omega), if_neg (by omega), if_neg (by omega),
      if_neg (by omega)]

/-- A run with present arguments and a valid year proceeds to the subprocess
and the file write. -/
theorem mainModel_proceeds (repoArg yearArg outArg : Option String)
    (h1 : argFalsy repoArg = false) (h2 : argFalsy yearArg = false)
    (h3 : isValidYear (jsStringToNumber (yearArg.getD "")) = true) :
    mainModel repoArg yearArg outArg = ⟨[], 0, true, some (outArg.getD "graph.png")⟩ := by
  unfold mainModel
  rw [h1, h2]
  simp [h3]

/-- Looking up the key just set returns the value just set. -/
theorem mapGet_mapSet_self :
    ∀ (m : List (String × ℕ)) (k : String) (v : ℕ), mapGet (mapSet m k v) k = some v
  | [], k, v => by simp [mapSet, mapGet]
  | (a, b) :: rest, k, v => by
    by_cases h : a = k
    · simp [mapSet, h, mapGet]
    · simp [mapSet, h, mapGet, mapGet_mapSet_self rest k v]

/-- Setting one key leaves lookups of other keys unchanged. -/
theorem mapGet_mapSet_ne :
    ∀ (m : List (String × ℕ)) (k k' : String) (v : ℕ), k' ≠ k →
      mapGet (mapSet m k v) k' = mapGet m k'
  | [], k, k', v, h => by simp [mapSet, mapGet, Ne.symm h]
  | (a, b) :: rest, k, k', v, h => by
    by_cases hak : a = k
    · subst hak
      simp [mapSet, mapGet, Ne.symm h]
    · by_cases hak' : a = k'
      · simp [mapSet, hak, mapGet, hak', h]
      · simp [mapSet, hak, mapGet, hak', mapGet_mapSet_ne rest k k' v h]

/-- One non-empty line prepends its trimmed date to the cleaned lines. -/
theorem cleanedDates_cons (l : String) (rest : List String) :
    cleanedDates (l :: rest) =
      if l.trim.isEmpty then cleanedDates rest else l.trim :: cleanedDates rest := by
  by_cases he : l.trim.isEmpty <;> simp [cleanedDates, he]

/-- `histStep` on an empty-after-trim line is the identity. -/
theorem histStep_empty (acc : List (String × ℕ)) (l : String) (he : l.trim.isEmpty) :
    histStep acc l = acc := by
  simp [histStep, he]

/-- `histStep` on a non-empty line increments the trimmed date's counter. -/
theorem histStep_nonempty (acc : List (String × ℕ)) (l : String) (he : ¬l.trim.isEmpty) :
    histStep acc l = mapSet acc l.trim ((mapGet acc l.trim).getD 0 + 1) := by
  simp [histStep, he]

/-- Characterization of the histogram fold: after processing `lines` on top of
`acc`, a key's value is its value in `acc` plus its number of occurrences
among the trimmed non-empty lines. -/
theorem mapGet_foldl_histStep :
    ∀ (lines : List String) (acc : List (String × ℕ)) (k : String),
      mapGet (lines.foldl histStep acc) k =
        if occ (cleanedDates lines) k = 0 then mapGet acc k
        else some ((mapGet acc k).getD 0 + occ (cleanedDates lines) k)
  | [], acc, k => by simp [cleanedDates, occ]
  | l :: rest, acc, k => by
    rw [List.foldl_cons, cleanedDates_cons]
    by_cases he : l.trim.isEmpty
    · rw [histStep_empty acc l he, if_pos he]
      exact mapGet_foldl_histStep rest acc k
    · rw [histStep_nonempty acc l he, if_neg he,
        mapGet_foldl_histStep rest (mapSet acc l.trim ((mapGet acc l.trim).getD 0 + 1)) k]
      by_cases hk : l.trim = k
      · subst hk
        rw [show occ (l.trim :: cleanedDates rest) l.trim
              = occ (cleanedDates rest) l.trim + 1 from by simp [occ]]
        rw [if_neg (Nat.succ_ne_zero _)]
        split_ifs with h0
        · rw [mapGet_mapSet_self, h0]
        · rw [mapGet_mapSet_self]
          simp only [Option.getD_some]
          congr 1
          omega
      · rw [show occ (l.trim :: cleanedDates rest) k = occ (cleanedDates rest) k from by
              simp [occ, hk]]
        rw [mapGet_mapSet_ne acc l.trim k _ (Ne.symm hk)]

/-- Every key of the updated map is the set key or an old key. -/
theorem keys_mapSet_sub :
    ∀ (m : List (String × ℕ)) (k : String) (v : ℕ) (a : String),
      a ∈ keysOf (mapSet m k v) → a = k ∨ a ∈ keysOf m
  | [], k, v, a, h => by
    left
    simpa [mapSet, keysOf] using h
  | (b, c) :: rest, k, v, a, h => by
    by_cases hbk : b = k
    · subst hbk
      simp [mapSet, keysOf] at h ⊢
      tauto
    · simp [mapSet, hbk, keysOf] at h ⊢
      rcases h with h | h
      · tauto
      · rcases keys_mapSet_sub rest k v a (by simpa [keysOf] using h) with h' | h'
        · tauto
        · simp [keysOf] at h'
          tauto

/-- `mapSet` preserves key uniqueness. -/
theorem keys_mapSet_nodup :
    ∀ (m : List (String × ℕ)) (k : String) (v : ℕ),
      (keysOf m).Nodup → (keysOf (mapSet m k v)).Nodup
  | [], k, v, _ => by simp [mapSet, keysOf]
  | (b, c) :: rest, k, v, h => by
    rw [show keysOf ((b, c) :: rest) = b :: keysOf rest from rfl, List.nodup_cons] at h
    by_cases hbk : b = k
    · subst hbk
      rw [show mapSet ((b, c) :: rest) b v = (b, v) :: rest from by simp [mapSet]]
      rw [show keysOf ((b, v) :: rest) = b :: keysOf rest from rfl, List.nodup_cons]
      exact h
    · rw [show mapSet ((b, c) :: rest) k v = (b, c) :: mapSet rest k v from by simp [mapSet, hbk]]
      rw [show keysOf ((b, c) :: mapSet rest k v) = b :: keysOf (mapSet rest k v) from rfl,
        List.nodup_cons]
      refine ⟨fun hmem => ?_, keys_mapSet_nodup rest k v h.2⟩
      rcases keys_mapSet_sub rest k v b hmem with h' | h'
      · exact hbk h'
      · exact h.1 h'

/-- Every entry of the updated map is the new entry or an old entry. -/
theorem mem_mapSet :
    ∀ (m : List (String × ℕ)) (k : String) (v : ℕ) (p : String × ℕ),
      p ∈ mapSet m k v → p = (k, v) ∨ p ∈ m
  | [], k, v, p, h => by
    left
    simpa [mapSet] using h
  | (b, c) :: rest, k, v, p, h => by
    by_cases hbk : b = k
    · subst hbk
      simp [mapSet] at h
      tauto
    · simp [mapSet, hbk] at h
      rcases h with h | h
      · right
        simp [h]
      · rcases mem_mapSet rest k v p h with h' | h'
        · tauto
        · right
          simp [h']

/-- The histogram fold preserves key uniqueness. -/
theorem foldl_histStep_nodup :
    ∀ (lines : List String) (acc : List (String × ℕ)),
      (keysOf acc).Nodup → (keysOf (lines.foldl histStep acc)).Nodup
  | [], _, h => h
  | l :: rest, acc, h => by
    rw [List.foldl_cons]
    by_cases he : l.trim.isEmpty
    · rw [histStep_empty acc l he]
      exact foldl_histStep_nodup rest acc h
    · rw [histStep_nonempty acc l he]
      exact foldl_histStep_nodup rest _ (keys_mapSet_nodup acc _ _ h)

/-- The histogram fold keeps every stored count at least 1. -/
theorem foldl_histStep_ge_one :
    ∀ (lines : List String) (acc : List (String × ℕ)),
      (∀ p ∈ acc, 1 ≤ p.2) → ∀ p ∈ lines.foldl histStep acc, 1 ≤ p.2
  | [], _, h => h
  | l :: rest, acc, h => by
    rw [List.foldl_cons]
    by_cases he : l.trim.isEmpty
    · rw [histStep_empty acc l he]
      exact foldl_histStep_ge_one rest acc h
    · rw [histStep_nonempty acc l he]
      apply foldl_histStep_ge_one rest
      intro p hp
      rcases mem_mapSet acc _ _ p hp with h' | h'
      · rw [h']
        omega
      · exact h p h'

/-- Membership in a day range is interval membership. -/
theorem mem_dayRange (a b d : ℤ) : d ∈ dayRange a b ↔ a ≤ d ∧ d < b := by
  simp only [dayRange, List.mem_map, List.mem_range]
  constructor
  · rintro ⟨i, hi, rfl⟩
    omega
  · rintro ⟨h1, h2⟩
    exact ⟨(d - a).toNat, by omega, by omega⟩

/-- Unfolding one month of the cumulative month-length sum. -/
theorem cumDaysInMonths_succ (y k : ℕ) :
    cumDaysInMonths y (k + 1) = cumDaysInMonths y k + daysInMonth y (k + 1) := by
  unfold cumDaysInMonths
  rw [List.range_succ, List.map_append, List.sum_append]
  simp

/-- Every month has at least one day. -/
theorem daysInMonth_pos (y m : ℕ) : 1 ≤ daysInMonth y m := by
  unfold daysInMonth
  split_ifs <;> omega

/-- The cumulative month-length sum is strictly monotone. -/
theorem cumDaysInMonths_lt (y : ℕ) (k k' : ℕ) (h : k < k') :
    cumDaysInMonths y k < cumDaysInMonths y k' := by
  induction k' with
  | zero => omega
  | succ n ih =>
    rw [cumDaysInMonths_succ]
    rcases Nat.lt_or_ge k n with h' | h'
    · have h1 := ih h'
      have h2 := daysInMonth_pos y (n + 1)
      omega
    · have hk : k = n := by omega
      subst hk
      have h2 := daysInMonth_pos y (k + 1)
      omega

/-- The cumulative month-length sum is monotone. -/
theorem cumDaysInMonths_le (y k k' : ℕ) (h : k ≤ k') :
    cumDaysInMonths y k ≤ cumDaysInMonths y k' := by
  rcases Nat.eq_or_lt_of_le h with rfl | h
  · exact Nat.le_refl _
  · exact Nat.le_of_lt (cumDaysInMonths_lt y k k' h)

/-- Twelve months sum to the year length. -/
theorem cumDaysInMonths_twelve (y : ℕ) : cumDaysInMonths y 12 = daysInYear y := by
  have e : List.range 12 = [0, 1, 2, 3, 4, 5, 6, 7, 8, 9, 10, 11] := rfl
  unfold cumDaysInMonths daysInYear
  rw [e]
  cases h : isLeap y <;> simp [daysInMonth, h]

/-- January 1 is the first month start. -/
theorem monthStartDay_one (y : ℕ) : monthStartDay y 1 = jan1 y := by
  unfold monthStartDay cumDaysInMonths
  simp

/-- One year of days separates consecutive January firsts. -/
theorem jan1_succ (y : ℕ) (hy : 1601 ≤ y) :
    jan1 (y + 1) = jan1 y + (daysInYear y : ℤ) := by
  have h1 : y + 1 - 1601 = (y - 1601) + 1 := by omega
  have h2 : 1601 + (y - 1601) = y := by omega
  unfold jan1 daysFromAnchor
  rw [h1, List.range_succ, List.map_append, List.sum_append]
  simp only [List.map_cons, List.map_nil, List.sum_cons, List.sum_nil, Nat.add_zero]
  rw [h2]
  push_cast
  ring

/-- Years have at least 365 days. -/
theorem daysInYear_ge (y : ℕ) : 365 ≤ daysInYear y := by
  unfold daysInYear
  split_ifs <;> omega

/-- Month starts do not precede their January 1. -/
theorem jan1_le_monthStartDay (y m : ℕ) : jan1 y ≤ monthStartDay y m := by
  unfold monthStartDay
  omega

/-- Month starts of a year precede the next January 1. -/
theorem monthStartDay_lt_jan1_succ (y m : ℕ) (hy : 1601 ≤ y) (hm : m ≤ 12) :
    monthStartDay y m < jan1 (y + 1) := by
  have h1 : cumDaysInMonths y (m - 1) ≤ cumDaysInMonths y 11 :=
    cumDaysInMonths_le y _ _ (by omega)
  have h2 : cumDaysInMonths y 11 < cumDaysInMonths y 12 := cumDaysInMonths_lt y 11 12 (by omega)
  have h3 := cumDaysInMonths_twelve y
  have h4 := jan1_succ y hy
  unfold monthStartDay
  omega

/-- The target year's month starts all sit in the three-year window. -/
theorem monthStartDay_mem_around (y : ℕ) (hy : 1 ≤ y) (k : ℕ) (hk : k < 12) :
    monthStartDay y (k + 1) ∈ monthStartsAround y := by
  rw [monthStartsAround, List.mem_map]
  refine ⟨12 + k, List.mem_range.2 (by omega), ?_⟩
  have e1 : y - 1 + (12 + k) / 12 = y := by omega
  have e2 : (12 + k) % 12 + 1 = k + 1 := by omega
  rw [e1, e2]

/-- A window element lying inside the target year is one of that year's
twelve month starts. -/
theorem around_inYear (y : ℕ) (hy1 : 1970 ≤ y) (m : ℤ)
    (hm : m ∈ monthStartsAround y) (h1 : jan1 y ≤ m) (h2 : m < jan1 (y + 1)) :
    ∃ k, k < 12 ∧ m = monthStartDay y (k + 1) := by
  rw [monthStartsAround, List.mem_map] at hm
  obtain ⟨i, hi, rfl⟩ := hm
  rw [List.mem_range] at hi
  rcases Nat.lt_or_ge i 12 with h | h
  · exfalso
    have e1 : y - 1 + i / 12 = y - 1 := by omega
    rw [e1] at h1
    have hb := monthStartDay_lt_jan1_succ (y - 1) (i % 12 + 1) (by omega) (by omega)
    have e2 : y - 1 + 1 = y := by omega
    rw [e2] at hb
    omega
  rcases Nat.lt_or_ge i 24 with h' | h'
  · have e1 : y - 1 + i / 12 = y := by omega
    rw [e1]
    exact ⟨i % 12, by omega, rfl⟩
  · exfalso
    have e1 : y - 1 + i / 12 = y + 1 := by omega
    rw [e1] at h2
    have hb := jan1_le_monthStartDay (y + 1) (i % 12 + 1)
    omega

/-- Folding `max` stays below any common upper bound. -/
theorem foldl_max_le (l : List ℤ) (b c : ℤ) (hb : b ≤ c) (hl : ∀ x ∈ l, x ≤ c) :
    l.foldl max b ≤ c := by
  induction l generalizing b with
  | nil => exact hb
  | cons a t ih =>
    exact ih (max b a) (max_le hb (hl a (List.mem_cons_self a t)))
      (fun x hx => hl x (List.mem_cons_of_mem a hx))

/-- The windowed month floor never exceeds its argument (given the window's
base month start is below it). -/
theorem timeMonthFloorNear_le (y : ℕ) (d : ℤ) (hbase : monthStartDay (y - 1) 1 ≤ d) :
    timeMonthFloorNear y d ≤ d := by
  unfold timeMonthFloorNear
  apply foldl_max_le
  · exact hbase
  · intro x hx
    rw [List.mem_filter] at hx
    exact of_decide_eq_true hx.2

/-- January 1 of the previous year is below the grid start. -/
theorem jan1_pred_le_gridStart (y : ℕ) (hy1 : 1970 ≤ y) :
    jan1 (y - 1) ≤ gridStart y := by
  have hj := jan1_succ (y - 1) (by omega)
  rw [show y - 1 + 1 = y from by omega] at hj
  have hd := daysInYear_ge (y - 1)
  unfold gridStart sundayFloor dow
  omega

/-- Membership in the rendered month-anchor list, characterized. -/
theorem mem_monthStarts (y : ℕ) (hy1 : 1970 ≤ y) (hy2 : y ≤ 2100) (m : ℤ) :
    m ∈ monthStarts y ↔
      (m ∈ monthStartsAround y ∧ jan1 y ≤ m ∧ m < jan1 (y + 1)) := by
  constructor
  · intro h
    unfold monthStarts timeMonthRangeNear at h
    rw [List.mem_filter] at h
    obtain ⟨h, hyr⟩ := h
    rw [List.mem_filter] at h
    exact ⟨of_decide_eq_true h.2, of_decide_eq_true hyr⟩
  · rintro ⟨haround, h1, h2⟩
    unfold monthStarts timeMonthRangeNear
    rw [List.mem_filter]
    refine ⟨?_, decide_eq_true ⟨h1, h2⟩⟩
    rw [List.mem_filter]
    refine ⟨?_, decide_eq_true haround⟩
    rw [mem_dayRange]
    constructor
    · have hfl : timeMonthFloorNear y (gridStart y) ≤ gridStart y := by
        apply timeMonthFloorNear_le
        rw [monthStartDay_one]
        exact jan1_pred_le_gridStart y hy1
      have hgs : gridStart y ≤ jan1 y := by
        unfold gridStart sundayFloor dow
        omega
      omega
    · have hge : jan1 (y + 1) ≤ gridEnd y := by
        unfold gridEnd sundayCeil sundayFloor dow
        omega
      omega

/-- Day ranges are strictly sorted. -/
theorem dayRange_pairwise (a b : ℤ) : (dayRange a b).Pairwise (· < ·) := by
  unfold dayRange
  exact List.Pairwise.map _ (fun i j (h : i < j) => by omega) (List.pairwise_lt_range _)

/-- The anchor list is strictly sorted. -/
theorem monthStarts_pairwise (y : ℕ) : (monthStarts y).Pairwise (· < ·) := by
  unfold monthStarts timeMonthRangeNear
  exact ((dayRange_pairwise _ _).sublist (List.filter_sublist _)).sublist
    (List.filter_sublist _)

/-- Two strictly sorted integer lists with the same members are equal. -/
theorem pairwise_lt_ext :
    ∀ (l₁ l₂ : List ℤ), l₁.Pairwise (· < ·) → l₂.Pairwise (· < ·) →
      (∀ a, a ∈ l₁ ↔ a ∈ l₂) → l₁ = l₂
  | [], [], _, _, _ => rfl
  | [], b :: t₂, _, _, hext =>
    absurd ((hext b).2 (List.mem_cons_self b t₂)) (List.not_mem_nil b)
  | a :: t₁, [], _, _, hext =>
    absurd ((hext a).1 (List.mem_cons_self a t₁)) (List.not_mem_nil a)
  | a :: t₁, b :: t₂, hp₁, hp₂, hext => by
    have hab : a = b := by
      have ha : a ∈ b :: t₂ := (hext a).1 (List.mem_cons_self a t₁)
      have hb : b ∈ a :: t₁ := (hext b).2 (List.mem_cons_self b t₂)
      rcases List.mem_cons.1 ha with h | h
      · exact h
      · rcases List.mem_cons.1 hb with h' | h'
        · exact h'.symm
        · have h1 : b < a := (List.pairwise_cons.1 hp₂).1 a h
          have h2 : a < b := (List.pairwise_cons.1 hp₁).1 b h'
          omega
    subst hab
    have htail : t₁ = t₂ := by
      apply pairwise_lt_ext t₁ t₂ (List.pairwise_cons.1 hp₁).2 (List.pairwise_cons.1 hp₂).2
      intro x
      constructor
      · intro hx
        have hx' : x ∈ a :: t₂ := (hext x).1 (List.mem_cons_of_mem a hx)
        rcases List.mem_cons.1 hx' with h | h
        · subst h
          exact absurd ((List.pairwise_cons.1 hp₁).1 x hx) (lt_irrefl x)
        · exact h
      · intro hx
        have hx' : x ∈ a :: t₁ := (hext x).2 (List.mem_cons_of_mem a hx)
        rcases List.mem_cons.1 hx' with h | h
        · subst h
          exact absurd ((List.pairwise_cons.1 hp₂).1 x hx) (lt_irrefl x)
        · exact h
    rw [htail]

/-! ### Claim theorems -/

/-- C1: `color` is a total, deterministic, monotone map from non-negative
integer commit counts to six fixed colors by ascending thresholds
`{1, 4, 7, 11, 16}`: counts in `[0,1)` map to `#ebedf0`, `[1,4)` to
`#9be9a8`, `[4,7)` to `#40c463`, `[7,11)` to `#30a14e`, `[11,16)` to
`#216e39`, and `[16,∞)` to `#134a22`; the boundary inputs
`0,1,3,4,6,7,10,11,15,16,1000` land in bands `0,1,1,2,2,3,3,4,4,5,5`. -/
theorem color_bands (n m : ℕ) (hnm : n ≤ m) :
    color n =
      (if n < 1 then "#ebedf0" else if n < 4 then "#9be9a8"
       else if n < 7 then "#40c463" else if n < 11 then "#30a14e"
       else if n < 16 then "#216e39" else "#134a22")
    ∧ bandIndex n ≤ bandIndex m
    ∧ (bandIndex 0 = 0 ∧ bandIndex 1 = 1 ∧ bandIndex 3 = 1 ∧ bandIndex 4 = 2
       ∧ bandIndex 6 = 2 ∧ bandIndex 7 = 3 ∧ bandIndex 10 = 3 ∧ bandIndex 11 = 4
       ∧ bandIndex 15 = 4 ∧ bandIndex 16 = 5 ∧ bandIndex 1000 = 5) := by
  refine ⟨?_, ?_, by decide⟩
  · show colorRange.getD (bandIndex n) "" = _
    rw [bandIndex_eq]
    split_ifs <;> rfl
  · rw [bandIndex_eq n, bandIndex_eq m]
    split_ifs <;> omega

/-- Witness for C1 at the concrete pair `3 ≤ 7`. -/
theorem color_bands_witness : (3 : ℕ) ≤ 7 ∧ bandIndex 3 ≤ bandIndex 7 :=
  ⟨by decide, (color_bands 3 7 (by decide)).2.1⟩

/-- C6: year validation accepts a numeric value exactly when it is an integer
in `[1970, 2100]`: it accepts 1970, 2100 and 2024, and rejects 1969, 2101,
the non-integer 2024.5, and the `NaN` produced by `Number("abc")`. -/
theorem isValidYear_spec :
    (∀ q : ℚ, isValidYear (some q) = true ↔ (q.den = 1 ∧ 1970 ≤ q ∧ q ≤ 2100))
    ∧ isValidYear (some 1970) = true
    ∧ isValidYear (some 2100) = true
    ∧ isValidYear (some 2024) = true
    ∧ isValidYear (some 1969) = false
    ∧ isValidYear (some 2101) = false
    ∧ jsStringToNumber "2024.5" = some (4049 / 2 : ℚ)
    ∧ isValidYear (jsStringToNumber "2024.5") = false
    ∧ jsStringToNumber "abc" = none
    ∧ isValidYear none = false := by
  have e1 : jsStringToNumber "2024.5"
      = some (((2024 : ℕ) : ℚ) + ((5 : ℕ) : ℚ) / (10 : ℚ) ^ (1 : ℕ)) := rfl
  have e2 : (((2024 : ℕ) : ℚ) + ((5 : ℕ) : ℚ) / (10 : ℚ) ^ (1 : ℕ)) = 4049 / 2 := by
    push_cast
    norm_num
  have e3 : ((4049 : ℚ) / 2) = mkRat 4049 2 := by
    rw [Rat.mkRat_eq_divInt, Rat.divInt_eq_div]
    norm_num
  refine ⟨fun q => ?_, rfl, rfl, rfl, rfl, rfl, e1.trans (by rw [e2]), ?_, rfl, rfl⟩
  · simp [isValidYear, Bool.and_eq_true, decide_eq_true_eq, beq_iff_eq, and_assoc]
  · rw [e1, e2, e3]
    rfl

/-- C10: the year CLI argument goes through JS `Number()` coercion before
validation, so strings that are not plain decimal integer literals — the hex
form `"0x7E8"`, the padded `" 2024 "`, and the exponent form `"2.024e3"` —
coerce to the integer 2024 and are accepted as valid years. -/
theorem numberCoercion_accepts_nonDecimal_forms :
    jsStringToNumber "0x7E8" = some 2024
    ∧ isValidYear (jsStringToNumber "0x7E8") = true
    ∧ jsStringToNumber " 2024 " = some 2024
    ∧ isValidYear (jsStringToNumber " 2024 ") = true
    ∧ jsStringToNumber "2.024e3" = some 2024
    ∧ isValidYear (jsStringToNumber "2.024e3") = true
    ∧ (mainModel (some "/repo") (some "0x7E8") none).invokedGit = true
    ∧ (mainModel (some "/repo") (some " 2024 ") none).invokedGit = true
    ∧ (mainModel (some "/repo") (some "2.024e3") none).invokedGit = true := by
  have e1 : jsStringToNumber "2.024e3"
      = some ((((2 : ℕ) : ℚ) + ((24 : ℕ) : ℚ) / (10 : ℚ) ^ (3 : ℕ))
          * (10 : ℚ) ^ (((3 : ℕ) : ℤ))) := rfl
  have e2 : ((((2 : ℕ) : ℚ) + ((24 : ℕ) : ℚ) / (10 : ℚ) ^ (3 : ℕ))
      * (10 : ℚ) ^ (((3 : ℕ) : ℤ))) = 2024 := by
    rw [zpow_natCast]
    push_cast
    norm_num
  have e3 : jsStringToNumber "2.024e3" = some 2024 := by rw [e1, e2]
  have v3 : isValidYear (jsStringToNumber "2.024e3") = true := by
    rw [e3]
    rfl
  refine ⟨rfl, rfl, rfl, rfl, e3, v3, ?_, ?_, ?_⟩
  · rw [mainModel_proceeds (some "/repo") (some "0x7E8") none rfl rfl rfl]
  · rw [mainModel_proceeds (some "/repo") (some " 2024 ") none rfl rfl rfl]
  · rw [mainModel_proceeds (some "/repo") (some "2.024e3") none rfl rfl v3]

/-- C7: whenever `repoPath` or `year` is missing (absent or empty), `main`
prints the usage text to standard error, sets exit code 1, and returns
without invoking the subprocess or writing an output file. -/
theorem main_missing_args (repoArg yearArg outArg : Option String)
    (h : argFalsy repoArg = true ∨ argFalsy yearArg = true) :
    mainModel repoArg yearArg outArg = ⟨[usage], 1, false, none⟩ := by
  unfold mainModel
  rcases h with h | h <;> simp [h]

/-- Witness for C7: a missing year argument aborts with the usage error. -/
theorem main_missing_args_witness :
    mainModel (some "/repo") none none = ⟨[usage], 1, false, none⟩ :=
  main_missing_args (some "/repo") none none (Or.inr (by decide))

/-- C4: the histogram builder splits on `\r?\n`, trims each line, skips lines
empty after trimming, and maps each remaining trimmed date string to the
exact number of times it occurs; every stored key has count ≥ 1 and the keys
are unique. -/
theorem parseGit_histogram (output : String) (k : String) :
    mapGet (parseGitContributionCounts output) k =
      (if occ (cleanedDates (splitLines output)) k = 0 then none
       else some (occ (cleanedDates (splitLines output)) k))
    ∧ (keysOf (parseGitContributionCounts output)).Nodup
    ∧ (parseGitContributionCounts output).all (fun p => decide (1 ≤ p.2)) = true := by
  refine ⟨?_, ?_, ?_⟩
  · have h := mapGet_foldl_histStep (splitLines output) [] k
    simpa [parseGitContributionCounts, buildHistogram, mapGet] using h
  · exact foldl_histStep_nodup (splitLines output) [] (by simp [keysOf])
  · rw [List.all_eq_true]
    intro p hp
    rw [decide_eq_true_eq]
    exact foldl_histStep_ge_one (splitLines output) [] (by simp) p hp

/-- C5: histogram construction is order-independent — permuting the input
commit-date lines yields the same date-to-count mapping. -/
theorem histogram_perm_invariant (l₁ l₂ : List String) (h : l₁.Perm l₂) (k : String) :
    mapGet (buildHistogram l₁) k = mapGet (buildHistogram l₂) k := by
  have hocc : occ (cleanedDates l₁) k = occ (cleanedDates l₂) k := by
    have hp : ((l₁.map String.trim).filter (fun s => !s.isEmpty)).Perm
        ((l₂.map String.trim).filter (fun s => !s.isEmpty)) :=
      (h.map String.trim).filter _
    exact (hp.filter _).length_eq
  rw [buildHistogram, buildHistogram, mapGet_foldl_histStep l₁ [] k,
    mapGet_foldl_histStep l₂ [] k, hocc]

/-- C2: for every target year in `[1970, 2100]`, the grid's start date is the
Sunday on or before January 1 of the year, its end date is the Sunday on or
after January 1 of the following year, the day-cell list covers exactly the
days in `[start, end)`, and its length is a multiple of 7. -/
theorem grid_range_invariant (y : ℕ) (hy1 : 1970 ≤ y) (hy2 : y ≤ 2100) :
    dow (gridStart y) = 0 ∧ gridStart y ≤ jan1 y ∧ jan1 y - gridStart y < 7
    ∧ dow (gridEnd y) = 0 ∧ jan1 (y + 1) ≤ gridEnd y ∧ gridEnd y - jan1 (y + 1) < 7
    ∧ (∀ d : ℤ, d ∈ gridDays y ↔ gridStart y ≤ d ∧ d < gridEnd y)
    ∧ (gridDays y).length % 7 = 0 := by
  have hlen : (gridDays y).length = (gridEnd y - gridStart y).toNat := by
    rw [gridDays, dayRange, List.length_map, List.length_range]
  refine ⟨?_, ?_, ?_, ?_, ?_, ?_, ?_, ?_⟩
  · unfold gridStart sundayFloor dow
    omega
  · unfold gridStart sundayFloor dow
    omega
  · unfold gridStart sundayFloor dow
    omega
  · unfold gridEnd sundayCeil sundayFloor dow
    omega
  · unfold gridEnd sundayCeil sundayFloor dow
    omega
  · unfold gridEnd sundayCeil sundayFloor dow
    omega
  · exact fun d => mem_dayRange (gridStart y) (gridEnd y) d
  · rw [hlen]
    unfold gridStart gridEnd sundayCeil sundayFloor dow
    omega

set_option maxRecDepth 40000 in
/-- Witness for C2 at the concrete year 2024. -/
theorem grid_range_invariant_witness :
    ((1970 : ℕ) ≤ 2024 ∧ (2024 : ℕ) ≤ 2100)
    ∧ dow (gridStart 2024) = 0 ∧ (gridDays 2024).length % 7 = 0 :=
  ⟨⟨by decide, by decide⟩, (grid_range_invariant 2024 (by decide) (by decide)).1,
   (grid_range_invariant 2024 (by decide) (by decide)).2.2.2.2.2.2.2⟩

/-- C3: a generated day cell is `inYear` exactly when its date lies in
`[yearStart, yearEnd)`; out-of-year cells have count 0, and in-year cells
carry the histogram value of the `YYYY-MM-DD` key, defaulting to 0. -/
theorem dayData_inYear_count (counts : List (String × ℕ)) (y : ℕ) (dd : DayDatum)
    (hd : dd ∈ days counts y) :
    (dd.inYear = true ↔ jan1 y ≤ dd.date ∧ dd.date < jan1 (y + 1))
    ∧ (dd.inYear = false → dd.count = 0)
    ∧ (dd.inYear = true → dd.count = (mapGet counts (formatDate dd.date)).getD 0) := by
  rw [days, List.mem_map] at hd
  obtain ⟨date, hmem, rfl⟩ := hd
  refine ⟨by simp [mkDayDatum], ?_, ?_⟩
  · intro hf
    simp only [mkDayDatum, decide_eq_false_iff_not] at hf ⊢
    simp [hf]
  · intro ht
    simp only [mkDayDatum, decide_eq_true_eq] at ht ⊢
    simp [ht]

set_option maxRecDepth 40000 in
/-- Witness for C3: in a grid for 2024 built from the histogram
`{"2024-01-01" ↦ 2}`, the cell of 2024-01-01 is in-year with count 2. -/
theorem dayData_inYear_count_witness :
    mkDayDatum [("2024-01-01", 2)] (jan1 2024) (jan1 2025) (jan1 2024)
        ∈ days [("2024-01-01", 2)] 2024
    ∧ ((mkDayDatum [("2024-01-01", 2)] (jan1 2024) (jan1 2025) (jan1 2024)).inYear = true ↔
        jan1 2024 ≤ (mkDayDatum [("2024-01-01", 2)] (jan1 2024) (jan1 2025) (jan1 2024)).date
        ∧ (mkDayDatum [("2024-01-01", 2)] (jan1 2024) (jan1 2025) (jan1 2024)).date
            < jan1 (2024 + 1)) :=
  ⟨by decide,
   (dayData_inYear_count [("2024-01-01", 2)] 2024
     (mkDayDatum [("2024-01-01", 2)] (jan1 2024) (jan1 2025) (jan1 2024)) (by decide)).1⟩

/-- C8: a day cell's column is the number of Sunday-to-Sunday week boundaries
between the grid start and its date, its row is the day-of-week index
(Sunday = 0 … Saturday = 6), and the rendered position is
`column * step` and `row * step` with `step = cellSize + cellGap`. -/
theorem day_cell_position (y : ℕ) (hy1 : 1970 ≤ y) (hy2 : y ≤ 2100)
    (counts : List (String × ℕ)) (d : ℤ) (hd : d ∈ gridDays y) :
    rectX (gridStart y) (mkDayDatum counts (jan1 y) (jan1 (y + 1)) d)
      = (d - gridStart y) / 7 * (cellSize + cellGap)
    ∧ rectY (mkDayDatum counts (jan1 y) (jan1 (y + 1)) d) = dow d * (cellSize + cellGap)
    ∧ step = cellSize + cellGap
    ∧ 0 ≤ dow d ∧ dow d < 7 := by
  have hd' : gridStart y ≤ d ∧ d < gridEnd y :=
    (mem_dayRange (gridStart y) (gridEnd y) d).1 hd
  have hX : rectX (gridStart y) (mkDayDatum counts (jan1 y) (jan1 (y + 1)) d)
      = sundayCount (gridStart y) d * step := rfl
  refine ⟨?_, rfl, rfl, ?_, ?_⟩
  · rw [hX]
    unfold sundayCount gridStart gridEnd sundayCeil sundayFloor dow step cellSize cellGap at *
    omega
  · unfold dow
    omega
  · unfold dow
    omega

set_option maxRecDepth 40000 in
/-- Witness for C8 at year 2024 and the cell of 2024-01-01. -/
theorem day_cell_position_witness :
    jan1 2024 ∈ gridDays 2024
    ∧ rectY (mkDayDatum [] (jan1 2024) (jan1 (2024 + 1)) (jan1 2024))
        = dow (jan1 2024) * (cellSize + cellGap) :=
  ⟨by decide,
   (day_cell_position 2024 (by decide) (by decide) [] (jan1 2024) (by decide)).2.1⟩

set_option maxRecDepth 2000 in
/-- C9: the month-label anchors are exactly the twelve month starts of the
target year (the first days of calendar months inside `[yearStart, yearEnd)`),
and each anchor's column is the number of Sunday-to-Sunday week boundaries
between the grid start and the Sunday on or before the month's first day. -/
theorem month_label_anchors (y : ℕ) (hy1 : 1970 ≤ y) (hy2 : y ≤ 2100) :
    monthStarts y = (List.range 12).map (fun i => monthStartDay y (i + 1))
    ∧ ∀ m ∈ monthStarts y,
        monthLabelX (gridStart y) m = (sundayFloor m - gridStart y) / 7 * step := by
  constructor
  · apply pairwise_lt_ext _ _ (monthStarts_pairwise y)
    · exact List.Pairwise.map _
        (fun i j (h : i < j) => by
          unfold monthStartDay
          have := cumDaysInMonths_lt y i j h
          simp only [Nat.add_sub_cancel]
          omega)
        (List.pairwise_lt_range 12)
    · intro a
      rw [mem_monthStarts y hy1 hy2 a, List.mem_map]
      constructor
      · rintro ⟨haround, h1, h2⟩
        obtain ⟨k, hk, hae⟩ := around_inYear y hy1 a haround h1 h2
        exact ⟨k, List.mem_range.2 hk, hae.symm⟩
      · rintro ⟨k, hk, hae⟩
        rw [List.mem_range] at hk
        rw [← hae]
        exact ⟨monthStartDay_mem_around y (by omega) k hk,
          jan1_le_monthStartDay y (k + 1),
          monthStartDay_lt_jan1_succ y (k + 1) (by omega) (by omega)⟩
  · intro m _
    unfold monthLabelX sundayCount gridStart sundayFloor dow step cellSize cellGap
    omega

/-- Witness for C9 at the concrete year 2024. -/
theorem month_label_anchors_witness :
    ((1970 : ℕ) ≤ 2024 ∧ (2024 : ℕ) ≤ 2100)
    ∧ monthStarts 2024 = (List.range 12).map (fun i => monthStartDay 2024 (i + 1)) :=
  ⟨⟨by decide, by decide⟩, (month_label_anchors 2024 (by decide) (by decide)).1⟩

/-- Witness for C5 on a concrete permutation of three lines. -/
theorem histogram_perm_invariant_witness :
    List.Perm ["2024-01-01", "2024-01-02", "2024-01-01"]
        ["2024-01-02", "2024-01-01", "2024-01-01"]
    ∧ mapGet (buildHistogram ["2024-01-01", "2024-01-02", "2024-01-01"]) "2024-01-01"
      = mapGet (buildHistogram ["2024-01-02", "2024-01-01", "2024-01-01"]) "2024-01-01" :=
  ⟨by decide,
   histogram_perm_invariant ["2024-01-01", "2024-01-02", "2024-01-01"]
     ["2024-01-02", "2024-01-01", "2024-01-01"] (by decide) "2024-01-01"⟩

end ContributionGraph
